import Mathlib

/-!
# Verification of the rumi indexing/retrieval core

Shallow embedding of the storage core of the `rumi` repository
(`src/storage/chunking.py`, `src/storage/qdrant_client.py`,
`src/storage/embeddings.py`) together with proofs of the specified
properties.

Conventions:
* Python strings are Lean `String`s; all character-level work is done on
  `String.data` (a `List Char`).
* The tiktoken encoder is an external model artifact; the chunker is
  parameterised by an `encoding : String → List Nat` exactly as the Python
  class stores `self.encoding` injected by tiktoken.  `count_tokens` is
  `len(encoding.encode(text))`.
* The Qdrant server is an external service; its point store is modelled as
  an association list keyed by the point UUID, with the documented
  insert-or-fully-replace upsert semantics.  Remote failures are modelled
  by `Except` values fed to the wrapper's `try/except` logic.
* Machine floats never enter any proof: vector entries are `ℚ` (the code
  treats them as opaque payload data).
-/

set_option autoImplicit false

namespace Rumi

/-! ## Python primitives

`pyIsSpace` is Python's `\s` / `str.strip` whitespace class
(space, tab, newline, carriage return, vertical tab, form feed). -/

def pyIsSpace (c : Char) : Bool :=
  c == ' ' || c == '\t' || c == '\n' || c == '\r' || c == '\x0b' || c == '\x0c'

/-- Python `str.strip()` on a character list. -/
def pyStripChars (l : List Char) : List Char :=
  ((l.dropWhile pyIsSpace).reverse.dropWhile pyIsSpace).reverse

/-- Python `str.strip()`. -/
def pyStrip (s : String) : String := ⟨pyStripChars s.data⟩

/-- Index of the last occurrence of `c` in a character list, if any. -/
def lastIdxOf (c : Char) : List Char → Option Nat
  | [] => none
  | x :: xs =>
    match lastIdxOf c xs with
    | some i => some (i + 1)
    | none => if x = c then some 0 else none

/-- Scanner for `re.split(r'\n\s*\n', text)`: a paragraph break is a
newline followed by a (possibly empty) whitespace run that contains another
newline; the greedy match ends at the last newline of that run. -/
def splitParasAux : List Char → List Char → List String → List String
  | [], cur, acc => acc ++ [⟨cur⟩]
  | '\n' :: rest, cur, acc =>
    match lastIdxOf '\n' (rest.takeWhile pyIsSpace) with
    | some k => splitParasAux (rest.drop (k + 1)) [] (acc ++ [⟨cur⟩])
    | none => splitParasAux rest (cur ++ ['\n']) acc
  | c :: rest, cur, acc => splitParasAux rest (cur ++ [c]) acc
termination_by l _ _ => l.length
decreasing_by
  all_goals simp [List.length_drop]
  all_goals omega

/-- `True` iff `c` ends a sentence (`[.!?]`). -/
def isSentEnd (c : Char) : Bool := c == '.' || c == '!' || c == '?'

/-- Scanner for `re.split(r'(?<=[.!?])\s+', text)`: split (consuming the
whitespace run) after every `[.!?]` that is followed by whitespace. -/
def splitSentsAux : List Char → List Char → List String → List String
  | [], cur, acc => acc ++ [⟨cur⟩]
  | c :: rest, cur, acc =>
    if isSentEnd c && (rest.head?.elim false pyIsSpace) then
      splitSentsAux (rest.drop (rest.takeWhile pyIsSpace).length) [] (acc ++ [⟨cur ++ [c]⟩])
    else
      splitSentsAux rest (cur ++ [c]) acc
termination_by l _ _ => l.length
decreasing_by
  all_goals simp [List.length_drop]
  all_goals omega

/-! ## TextChunker (src/storage/chunking.py) -/

/-- `TextChunker._split_by_paragraphs`: split on blank lines, strip each
part, drop the empty ones. -/
def splitByParagraphs (text : String) : List String :=
  ((splitParasAux text.data [] []).map pyStrip).filter (fun p => p ≠ "")

/-- `TextChunker._split_by_sentences`: split after sentence-ending
punctuation, strip each part, drop the empty ones. -/
def splitBySentences (text : String) : List String :=
  ((splitSentsAux text.data [] []).map pyStrip).filter (fun s => s ≠ "")

/-- The `TextChunker` object: `max_tokens`, the (stored but never applied)
`overlap_tokens`, and the tiktoken encoder injected at construction. -/
structure TextChunker where
  max_tokens : Nat
  overlap_tokens : Nat
  encoding : String → List Nat

/-- `TextChunker.count_tokens`: `len(self.encoding.encode(text))`. -/
def TextChunker.count_tokens (c : TextChunker) (text : String) : Nat :=
  (c.encoding text).length

/-- A chunk as produced during `_create_chunks` before indexing:
the accumulated pieces (paragraphs or sentences, later joined with
`"\n\n"`) and the running token total recorded with them. -/
structure RawChunk where
  pieces : List String
  tokens : Nat
  deriving DecidableEq

/-- Python `"\n\n".join(pieces)`. -/
def join2nl : List String → String
  | [] => ""
  | [s] => s
  | s :: rest => s ++ "\n\n" ++ join2nl rest

/-- The chunk dict returned by `chunk_text` / `_create_chunks`.  The ghost
field `pieces` records the pieces whose `"\n\n"`-join is `text`; it is used
to state the oversized-single-sentence exception. -/
structure Chunk (M : Type) where
  chunk_id : String
  text : String
  pieces : List String
  tokens : Nat
  chunk_index : Nat
  total_chunks : Nat
  parent_id : String
  metadata : M
  deriving DecidableEq

/-- The mutable loop state of `_create_chunks`: finalized chunks, the
current chunk's pieces, and the current running token total. -/
structure ChunkState where
  chunks : List RawChunk
  current : List String
  current_tokens : Nat

/-- `if current_chunk: chunks.append({...})` — finalize the current chunk
if it is nonempty. -/
def flushCurrent (st : ChunkState) : List RawChunk :=
  st.chunks ++ (if st.current.isEmpty then [] else [⟨st.current, st.current_tokens⟩])

/-- One accumulation step of `_create_chunks`, shared by the paragraph and
the sentence branch: if adding the piece would exceed `max_tokens`,
finalize the current chunk and start a new one with the piece; otherwise
append the piece. -/
def accumPiece (max : Nat) (st : ChunkState) (piece : String) (t : Nat) : ChunkState :=
  if st.current_tokens + t > max then
    { chunks := flushCurrent st, current := [piece], current_tokens := t }
  else
    { chunks := st.chunks, current := st.current ++ [piece],
      current_tokens := st.current_tokens + t }

/-- The body of the `for para in paragraphs` loop: a paragraph over the
budget is split into sentences which are accumulated one by one; a
paragraph within the budget is accumulated directly. -/
def processParagraph (c : TextChunker) (st : ChunkState) (para : String) : ChunkState :=
  if c.count_tokens para > c.max_tokens then
    (splitBySentences para).foldl
      (fun s sent => accumPiece c.max_tokens s sent (c.count_tokens sent)) st
  else
    accumPiece c.max_tokens st para (c.count_tokens para)

/-- The raw chunk list built by `_create_chunks` before metadata is
attached: fold the loop body over the paragraphs, then flush the final
current chunk. -/
def rawChunks (c : TextChunker) (paragraphs : List String) : List RawChunk :=
  flushCurrent (paragraphs.foldl (processParagraph c) ⟨[], [], 0⟩)

/-- The `for i, chunk in enumerate(chunks): chunk.update({...})` loop:
attach `chunk_id`, `chunk_index`, `total_chunks`, `parent_id` and
`metadata` to each raw chunk. -/
def finalizeChunks {M : Type} (doc_id : String) (metadata : M) (total : Nat) :
    Nat → List RawChunk → List (Chunk M)
  | _, [] => []
  | i, rc :: rest =>
    { chunk_id := doc_id ++ ":chunk_" ++ toString i,
      text := join2nl rc.pieces,
      pieces := rc.pieces,
      tokens := rc.tokens,
      chunk_index := i,
      total_chunks := total,
      parent_id := doc_id,
      metadata := metadata } :: finalizeChunks doc_id metadata total (i + 1) rest

/-- `TextChunker._create_chunks` (renamed without the leading underscore). -/
def TextChunker.create_chunks {M : Type} (c : TextChunker) (paragraphs : List String)
    (doc_id : String) (metadata : M) : List (Chunk M) :=
  let raw := rawChunks c paragraphs
  finalizeChunks doc_id metadata raw.length 0 raw

/-- `TextChunker.chunk_text`: a text within the token budget is returned
as one single chunk verbatim; otherwise the text is split by paragraphs
and assembled by `_create_chunks`. -/
def TextChunker.chunk_text {M : Type} (c : TextChunker) (text : String)
    (doc_id : String) (metadata : M) : List (Chunk M) :=
  let token_count := c.count_tokens text
  if token_count ≤ c.max_tokens then
    [{ chunk_id := doc_id ++ ":chunk_0",
       text := text,
       pieces := [text],
       tokens := token_count,
       chunk_index := 0,
       total_chunks := 1,
       parent_id := doc_id,
       metadata := metadata }]
  else
    c.create_chunks (splitByParagraphs text) doc_id metadata

/-- A concrete per-character encoding used to instantiate witnesses (one
token id per character; on the empty string it yields no tokens, exactly
as tiktoken's `cl100k_base` does). -/
def charEncode (s : String) : List Nat := s.data.map Char.toNat

/-! ## string_to_uuid (src/storage/qdrant_client.py)

`str(uuid.uuid5(uuid.NAMESPACE_DNS, text))`: the SHA-1 digest of the DNS
namespace bytes followed by the UTF-8 encoding of `text`, truncated to 16
bytes with the RFC 4122 version/variant bits set, printed as the dashed
lowercase hex string.  32-bit words are `Nat`s kept below `2 ^ 32` with
explicit `% 2 ^ 32`. -/

/-- UTF-8 encoding of one character as a byte list. -/
def utf8Char (c : Char) : List Nat :=
  let n := c.toNat
  if n < 0x80 then [n]
  else if n < 0x800 then
    [0xC0 ||| (n >>> 6), 0x80 ||| (n &&& 0x3F)]
  else if n < 0x10000 then
    [0xE0 ||| (n >>> 12), 0x80 ||| ((n >>> 6) &&& 0x3F), 0x80 ||| (n &&& 0x3F)]
  else
    [0xF0 ||| (n >>> 18), 0x80 ||| ((n >>> 12) &&& 0x3F),
     0x80 ||| ((n >>> 6) &&& 0x3F), 0x80 ||| (n &&& 0x3F)]

/-- UTF-8 encoding of a string as a byte list. -/
def utf8Encode (s : String) : List Nat := (s.data.map utf8Char).flatten

/-- Rotate a 32-bit word left by `k` bits. -/
def rotl32 (k n : Nat) : Nat := ((n <<< k) % 2 ^ 32) ||| (n >>> (32 - k))

/-- Group a byte list into big-endian 32-bit words. -/
def wordsOfBytes : List Nat → List Nat
  | a :: b :: c :: d :: rest => (((a * 256 + b) * 256 + c) * 256 + d) :: wordsOfBytes rest
  | _ => []

/-- Extend the 16 words of a block to the 80-word SHA-1 message schedule. -/
def sha1Extend (ws : List Nat) : List Nat :=
  (List.range 64).foldl
    (fun acc _ =>
      let n := acc.length
      acc ++ [rotl32 1 ((acc.getD (n - 3) 0) ^^^ (acc.getD (n - 8) 0) ^^^
                        (acc.getD (n - 14) 0) ^^^ (acc.getD (n - 16) 0))])
    ws

/-- The SHA-1 round function for round `t`. -/
def sha1F (t b c d : Nat) : Nat :=
  if t < 20 then (b &&& c) ||| ((b ^^^ 0xFFFFFFFF) &&& d)
  else if t < 40 then b ^^^ c ^^^ d
  else if t < 60 then (b &&& c) ||| (b &&& d) ||| (c &&& d)
  else b ^^^ c ^^^ d

/-- The SHA-1 round constant for round `t`. -/
def sha1K (t : Nat) : Nat :=
  if t < 20 then 0x5A827999
  else if t < 40 then 0x6ED9EBA1
  else if t < 60 then 0x8F1BBCDC
  else 0xCA62C1D6

/-- SHA-1 compression of one 64-byte block into the running state. -/
def sha1Block (h : Nat × Nat × Nat × Nat × Nat) (block : List Nat) :
    Nat × Nat × Nat × Nat × Nat :=
  let ws := sha1Extend (wordsOfBytes block)
  let fin := (List.range 80).foldl
    (fun st t =>
      match st with
      | (a, b, c, d, e) =>
        ((rotl32 5 a + sha1F t b c d + e + sha1K t + ws.getD t 0) % 2 ^ 32,
         a, rotl32 30 b, c, d))
    h
  match h, fin with
  | (h0, h1, h2, h3, h4), (a, b, c, d, e) =>
    ((h0 + a) % 2 ^ 32, (h1 + b) % 2 ^ 32, (h2 + c) % 2 ^ 32,
     (h3 + d) % 2 ^ 32, (h4 + e) % 2 ^ 32)

/-- Big-endian bytes of an 8-byte (bit-length) field. -/
def be8 (n : Nat) : List Nat :=
  [(n >>> 56) % 256, (n >>> 48) % 256, (n >>> 40) % 256, (n >>> 32) % 256,
   (n >>> 24) % 256, (n >>> 16) % 256, (n >>> 8) % 256, n % 256]

/-- Big-endian bytes of a 32-bit word. -/
def be4 (n : Nat) : List Nat :=
  [(n >>> 24) % 256, (n >>> 16) % 256, (n >>> 8) % 256, n % 256]

/-- SHA-1 padding: `0x80`, zero bytes to 56 mod 64, then the big-endian
64-bit bit length. -/
def sha1Pad (msg : List Nat) : List Nat :=
  let r := (msg.length + 1) % 64
  let zeros := if r ≤ 56 then 56 - r else 64 + 56 - r
  msg ++ [0x80] ++ List.replicate zeros 0 ++ be8 (msg.length * 8)

/-- Split a (padded) byte list into 64-byte blocks. -/
def toBlocks : List Nat → List (List Nat)
  | [] => []
  | x :: rest => (x :: rest).take 64 :: toBlocks (rest.drop 63)
termination_by l => l.length
decreasing_by
  simp [List.length_drop]
  omega

/-- The 20-byte SHA-1 digest of a byte list. -/
def sha1 (msg : List Nat) : List Nat :=
  match (toBlocks (sha1Pad msg)).foldl sha1Block
      (0x67452301, 0xEFCDAB89, 0x98BADCFE, 0x10325476, 0xC3D2E1F0) with
  | (h0, h1, h2, h3, h4) => be4 h0 ++ be4 h1 ++ be4 h2 ++ be4 h3 ++ be4 h4

/-- The 16 bytes of `uuid.NAMESPACE_DNS`. -/
def namespaceDNS : List Nat :=
  [0x6b, 0xa7, 0xb8, 0x10, 0x9d, 0xad, 0x11, 0xd1,
   0x80, 0xb4, 0x00, 0xc0, 0x4f, 0xd4, 0x30, 0xc8]

/-- The 16 bytes of `uuid.uuid5(uuid.NAMESPACE_DNS, name)`: SHA-1 digest
truncated to 16 bytes, version nibble set to 5, variant bits to `10`. -/
def uuid5Bytes (name : String) : List Nat :=
  let d := sha1 (namespaceDNS ++ utf8Encode name)
  d.take 6 ++ [((d.getD 6 0) &&& 0x0F) ||| 0x50] ++ [d.getD 7 0] ++
    [((d.getD 8 0) &&& 0x3F) ||| 0x80] ++ [d.getD 9 0] ++ (d.drop 10).take 6

/-- Lowercase hex digit for `n < 16`. -/
def hexDigit (n : Nat) : Char :=
  if n < 10 then Char.ofNat (48 + n) else Char.ofNat (87 + n)

/-- A byte list as lowercase hex characters. -/
def hexOf (l : List Nat) : List Char :=
  (l.map (fun n => [hexDigit (n / 16), hexDigit (n % 16)])).flatten

/-- `string_to_uuid`: `str(uuid.uuid5(uuid.NAMESPACE_DNS, text))` — the
dashed 8-4-4-4-12 lowercase hex rendering of the UUIDv5 bytes. -/
def string_to_uuid (text : String) : String :=
  let b := uuid5Bytes text
  ⟨hexOf (b.take 4) ++ '-' :: hexOf ((b.drop 4).take 2) ++
   '-' :: hexOf ((b.drop 6).take 2) ++ '-' :: hexOf ((b.drop 8).take 2) ++
   '-' :: hexOf (b.drop 10)⟩

/-! ## RumiQdrantClient (src/storage/qdrant_client.py)

The Qdrant server owns the point store; it is modelled as an association
list from point UUID to stored point, with Qdrant's documented
insert-or-fully-replace upsert.  An absent collection is `none`; remote
failures reach the wrapper's `try/except` blocks as `Except.error`. -/

/-- A payload (Python dict) value: a string or a list of strings (the
shapes the wrapper stores and filters on). -/
inductive PValue where
  | str (s : String)
  | strList (l : List String)
  deriving DecidableEq

/-- A point payload / metadata dict. -/
abbrev Payload := List (String × PValue)

/-- Python `d.get(k)` on an association-list dict. -/
def payloadGet (p : Payload) (k : String) : Option PValue :=
  (p.find? (fun kv => kv.1 = k)).map (fun kv => kv.2)

/-- Python dict assignment `d[k] = v`. -/
def payloadSet (p : Payload) (k : String) (v : PValue) : Payload :=
  if p.any (fun kv => kv.1 = k) then
    p.map (fun kv => if kv.1 = k then (k, v) else kv)
  else p ++ [(k, v)]

/-- `payload = metadata.copy(); payload["chunk_id"] = chunk_id`. -/
def withChunkId (metadata : Payload) (chunk_id : String) : Payload :=
  payloadSet metadata "chunk_id" (PValue.str chunk_id)

/-- A stored point: vector and payload (entries are exact rationals; the
wrapper treats them as opaque numbers). -/
structure Point where
  vector : List ℚ
  payload : Payload
  deriving DecidableEq

/-- The collection's point store, keyed by point UUID. -/
abbrev Store := List (String × Point)

/-- Fetch a stored point by id. -/
def storeGet (s : Store) (id : String) : Option Point :=
  (s.find? (fun kv => kv.1 = id)).map (fun kv => kv.2)

/-- Whether a point id is present. -/
def hasKey (s : Store) (id : String) : Bool := s.any (fun kv => kv.1 = id)

/-- Qdrant upsert: fully replace the point at `id` if present, append it
otherwise. -/
def storeUpsert (s : Store) (id : String) (pt : Point) : Store :=
  if hasKey s id then s.map (fun kv => if kv.1 = id then (id, pt) else kv)
  else s ++ [(id, pt)]

/-- The collection's `points_count`. -/
def pointsCount (s : Store) : Nat := s.length

/-- The body of `upsert_document`'s `try` block: validate the embedding
dimension against `self.vector_size = 1536` (raising `ValueError` on
mismatch, before anything is written), then upsert the point at
`string_to_uuid chunk_id` with the payload extended by the original
`chunk_id`. -/
def upsertBody (s : Store) (chunk_id : String) (embedding : List ℚ)
    (metadata : Payload) : Except String Store :=
  if embedding.length ≠ 1536 then
    Except.error ("Expected 1536 dimensions, got " ++ toString embedding.length)
  else
    Except.ok (storeUpsert s (string_to_uuid chunk_id)
      ⟨embedding, withChunkId metadata chunk_id⟩)

/-- `upsert_document`: the surrounding `try/except Exception` — `True`
with the new store on success; any raised exception is logged and turned
into `False` with the store unchanged. -/
def upsert_document (s : Store) (chunk_id : String) (embedding : List ℚ)
    (metadata : Payload) : Bool × Store :=
  match upsertBody s chunk_id embedding metadata with
  | Except.ok s2 => (true, s2)
  | Except.error _ => (false, s)

/-- `client.retrieve` on one id: raises when the collection does not
exist; otherwise returns the points found among the requested ids. -/
def retrieveRemote (st : Option Store) (id : String) : Except String (List Point) :=
  match st with
  | none => Except.error "Collection not found"
  | some s => Except.ok ((storeGet s id).toList)

/-- The `try/except` logic of `point_exists` applied to the outcome of
the remote retrieve: `len(result) > 0` on success, `False` on any raised
exception. -/
def pointExistsFrom (r : Except String (List Point)) : Bool :=
  match r with
  | Except.ok result => decide (result.length > 0)
  | Except.error _ => false

/-- `point_exists`: retrieve by `string_to_uuid chunk_id`. -/
def point_exists (st : Option Store) (chunk_id : String) : Bool :=
  pointExistsFrom (retrieveRemote st (string_to_uuid chunk_id))

/-- One `FieldCondition` built by `search`. -/
inductive Condition where
  | catEq (v : String)
  | srcEq (v : String)
  | tagsAny (ts : List String)
  deriving DecidableEq

/-- The `filter_conditions` list built by `search`.  Python truthiness:
`if category:` skips `None` and the empty string; `if tags:` skips `None`
and the empty list. -/
def buildConditions (category source : Option String)
    (tags : Option (List String)) : List Condition :=
  (match category with
   | some c => if c ≠ "" then [Condition.catEq c] else []
   | none => []) ++
  (match source with
   | some v => if v ≠ "" then [Condition.srcEq v] else []
   | none => []) ++
  (match tags with
   | some ts => if ts ≠ [] then [Condition.tagsAny ts] else []
   | none => [])

/-- Whether a stored payload satisfies one condition (Qdrant semantics:
`MatchValue` is equality on the field — any-element equality on an array
field; `MatchAny` matches if any of the given values occurs in the
field). -/
def satCondition (p : Payload) : Condition → Bool
  | Condition.catEq v =>
    match payloadGet p "category" with
    | some (PValue.str u) => u = v
    | some (PValue.strList l) => l.contains v
    | none => false
  | Condition.srcEq v =>
    match payloadGet p "source" with
    | some (PValue.str u) => u = v
    | some (PValue.strList l) => l.contains v
    | none => false
  | Condition.tagsAny ts =>
    match payloadGet p "tags" with
    | some (PValue.str u) => ts.contains u
    | some (PValue.strList l) => l.any (fun t => ts.contains t)
    | none => false

/-- `Filter(must=conds)`: conjunction of all supplied conditions. -/
def satAll (conds : List Condition) (p : Payload) : Bool :=
  conds.all (satCondition p)

/-- One scored point returned by the remote query. -/
structure Hit where
  id : String
  score : ℚ
  payload : Payload
  deriving DecidableEq

/-- Insert a hit into a list that is sorted by descending score. -/
def insertByScore (h : Hit) : List Hit → List Hit
  | [] => [h]
  | x :: xs => if x.score ≤ h.score then h :: x :: xs else x :: insertByScore h xs

/-- Sort hits by descending score. -/
def sortByScoreDesc : List Hit → List Hit
  | [] => []
  | x :: xs => insertByScore x (sortByScoreDesc xs)

/-- The optional `score_threshold`. -/
def thresholdOk (thr : Option ℚ) (sc : ℚ) : Bool :=
  match thr with
  | none => true
  | some t => t ≤ sc

/-- The Qdrant `query_points` call, modelled with the collection's scoring
function (the similarity metric fixed at creation): score every stored
point, keep those passing the filter and the optional threshold, order by
descending score, return the first `limit`. -/
def queryPoints (score : List ℚ → List ℚ → ℚ) (s : Store) (query : List ℚ)
    (conds : List Condition) (limit : Nat) (thr : Option ℚ) : List Hit :=
  let scored := s.map (fun kv => Hit.mk kv.1 (score query kv.2.vector) kv.2.payload)
  let kept := scored.filter (fun h => satAll conds h.payload && thresholdOk thr h.score)
  (sortByScoreDesc kept).take limit

/-- One entry of `search`'s `formatted_results` (note: the code puts the
point UUID `hit.id` in the `chunk_id` field). -/
structure SearchResult where
  chunk_id : String
  score : ℚ
  metadata : Payload
  deriving DecidableEq

/-- The `formatted_results` list comprehension. -/
def formatResults (hits : List Hit) : List SearchResult :=
  hits.map (fun h => SearchResult.mk h.id h.score h.payload)

/-- The `try/except` of `search` applied to the remote outcome: format
the hits on success, return `[]` on any raised exception. -/
def searchOutcome (r : Except String (List Hit)) : List SearchResult :=
  match r with
  | Except.ok hits => formatResults hits
  | Except.error _ => []

/-- The remote query: raises when the collection is missing. -/
def queryRemote (score : List ℚ → List ℚ → ℚ) (st : Option Store)
    (query : List ℚ) (conds : List Condition) (limit : Nat) (thr : Option ℚ) :
    Except String (List Hit) :=
  match st with
  | none => Except.error "Collection not found"
  | some s => Except.ok (queryPoints score s query conds limit thr)

/-- `RumiQdrantClient.search`. -/
def search (score : List ℚ → List ℚ → ℚ) (st : Option Store) (query : List ℚ)
    (limit : Nat) (category source : Option String) (tags : Option (List String))
    (thr : Option ℚ) : List SearchResult :=
  searchOutcome (queryRemote score st query (buildConditions category source tags) limit thr)

/-- Qdrant delete: remove the point with the given id (no-op if absent). -/
def storeDelete (s : Store) (id : String) : Store :=
  s.filter (fun kv => kv.1 ≠ id)

/-- The remote delete call: raises when the collection is missing. -/
def deleteRemote (st : Option Store) (id : String) : Except String Store :=
  match st with
  | none => Except.error "Collection not found"
  | some s => Except.ok (storeDelete s id)

/-- The `try/except` of `delete_document`: `True` on success, `False`
when the remote call raised. -/
def deleteOutcome (r : Except String Store) : Bool :=
  match r with
  | Except.ok _ => true
  | Except.error _ => false

/-- `RumiQdrantClient.delete_document`. -/
def delete_document (st : Option Store) (chunk_id : String) : Bool :=
  deleteOutcome (deleteRemote st (string_to_uuid chunk_id))

/-- The dict returned by `get_collection_stats` on success. -/
structure CollectionStats where
  points_count : Nat
  vectors_count : Nat
  status : String
  deriving DecidableEq

/-- The remote `get_collection` call: raises when the collection is
missing. -/
def statsRemote (st : Option Store) : Except String CollectionStats :=
  match st with
  | none => Except.error "Collection not found"
  | some s => Except.ok ⟨pointsCount s, pointsCount s, "green"⟩

/-- The `try/except` of `get_collection_stats`: the stats dict on
success, the empty dict (`none`) when the remote call raised. -/
def statsOutcome (r : Except String CollectionStats) : Option CollectionStats :=
  match r with
  | Except.ok i => some i
  | Except.error _ => none

/-- `RumiQdrantClient.get_collection_stats`. -/
def get_collection_stats (st : Option Store) : Option CollectionStats :=
  statsOutcome (statsRemote st)

/-! ## EmbeddingGenerator (src/storage/embeddings.py) -/

/-- Outcome of `generate_embeddings_batch`: whether the remote embedding
service was called, and the value returned or error raised. -/
structure BatchOutcome where
  remoteCalled : Bool
  result : Except String (List (List ℚ))

/-- `generate_embeddings_batch`: `if not texts: return []` without a
remote call; otherwise one remote call whose response is validated to
have exactly one vector per input text and `self.dimensions = 1536`
components per vector — the `ValueError` raised on a mismatch is logged
and re-raised by the `except` clause. -/
def generate_embeddings_batch (remote : List String → List (List ℚ))
    (texts : List String) : BatchOutcome :=
  if texts.isEmpty then ⟨false, Except.ok []⟩
  else
    let embeddings := remote texts
    if embeddings.length ≠ texts.length then
      ⟨true, Except.error ("Expected " ++ toString texts.length ++ " embeddings, got " ++
        toString embeddings.length)⟩
    else if embeddings.any (fun e => e.length ≠ 1536) then
      ⟨true, Except.error "Expected 1536 dims"⟩
    else ⟨true, Except.ok embeddings⟩

/-! ## Derived notions used in the statements -/

/-- The pieces of a raw chunk list, in order. -/
def piecesFlat (l : List RawChunk) : List String :=
  (l.map RawChunk.pieces).flatten

/-- The sequence of pieces `chunk_text` distributes over its chunks: the
whole text if it fits the budget, otherwise the paragraphs with each
over-budget paragraph replaced by its sentences. -/
def processedPieces (c : TextChunker) (text : String) : List String :=
  if c.count_tokens text ≤ c.max_tokens then [text]
  else (splitByParagraphs text).flatMap
    (fun p => if c.count_tokens p > c.max_tokens then splitBySentences p else [p])

/-- The token-budget invariant of a produced raw chunk: within the budget,
or a single indivisible piece that alone exceeds it. -/
def goodRaw (c : TextChunker) (rc : RawChunk) : Prop :=
  rc.tokens ≤ c.max_tokens ∨
    ∃ s, rc.pieces = [s] ∧ c.count_tokens s > c.max_tokens

/-- The same invariant for the in-progress chunk of the loop state. -/
def goodCurrent (c : TextChunker) (cur : List String) (tok : Nat) : Prop :=
  tok ≤ c.max_tokens ∨ ∃ s, cur = [s] ∧ c.count_tokens s > c.max_tokens

/-! # Store lemmas -/

theorem storeGet_map_replace (s : Store) (id : String) (pt : Point)
    (h : hasKey s id = true) :
    storeGet (s.map (fun kv => if kv.1 = id then (id, pt) else kv)) id = some pt := by
  induction s with
  | nil => simp [hasKey] at h
  | cons kv rest ih =>
    by_cases hk : kv.1 = id
    · simp [storeGet, hk]
    · have h2 : hasKey rest id = true := by
        simp [hasKey] at h ⊢
        tauto
      simpa [storeGet, hk] using ih h2

theorem hasKey_map_replace (s : Store) (id : String) (pt : Point)
    (h : hasKey s id = true) :
    hasKey (s.map (fun kv => if kv.1 = id then (id, pt) else kv)) id = true := by
  induction s with
  | nil => simp [hasKey] at h
  | cons kv rest ih =>
    by_cases hk : kv.1 = id
    · simp [hasKey, hk]
    · have h2 : hasKey rest id = true := by
        simp [hasKey] at h ⊢
        tauto
      simpa [hasKey, hk] using ih h2

theorem hasKey_append_self (s : Store) (id : String) (pt : Point) :
    hasKey (s ++ [(id, pt)]) id = true := by
  simp [hasKey]

theorem storeGet_append_of_not (s : Store) (id : String) (pt : Point)
    (h : hasKey s id = false) : storeGet (s ++ [(id, pt)]) id = some pt := by
  induction s with
  | nil => simp [storeGet]
  | cons kv rest ih =>
    simp [hasKey] at h
    simpa [storeGet, h.1] using ih (by simp [hasKey]; exact h.2)

theorem storeGet_storeUpsert_self (s : Store) (id : String) (pt : Point) :
    storeGet (storeUpsert s id pt) id = some pt := by
  unfold storeUpsert
  by_cases h : hasKey s id = true
  · simpa [h] using storeGet_map_replace s id pt h
  · have h2 : hasKey s id = false := by simpa using h
    simpa [h2] using storeGet_append_of_not s id pt h2

theorem hasKey_storeUpsert_self (s : Store) (id : String) (pt : Point) :
    hasKey (storeUpsert s id pt) id = true := by
  unfold storeUpsert
  by_cases h : hasKey s id = true
  · simpa [h] using hasKey_map_replace s id pt h
  · simpa [h] using hasKey_append_self s id pt

theorem length_storeUpsert_of_hasKey (s : Store) (id : String) (pt : Point)
    (h : hasKey s id = true) : (storeUpsert s id pt).length = s.length := by
  simp [storeUpsert, h]

theorem upsert_document_ok (s : Store) (k : String) (v : List ℚ) (p : Payload)
    (hv : v.length = 1536) :
    upsert_document s k v p =
      (true, storeUpsert s (string_to_uuid k) ⟨v, withChunkId p k⟩) := by
  simp [upsert_document, upsertBody, hv]

/-! # Claims -/

/-- Claim C1 — upsert is idempotent per key: with a 1536-dimensional
vector, a second `upsert_document` of the same key succeeds, leaves the
collection's point count exactly what it was after the first upsert, and a
subsequent retrieve at the key's deterministic UUID returns the point with
the second payload (and not the first, whenever the two stored payloads
differ). -/
theorem C1_upsert_idempotent_per_key (s : Store) (k : String) (v : List ℚ)
    (p1 p2 : Payload) (hv : v.length = 1536) :
    pointsCount (upsert_document (upsert_document s k v p1).2 k v p2).2 =
      pointsCount (upsert_document s k v p1).2 ∧
    (upsert_document s k v p1).1 = true ∧
    (upsert_document (upsert_document s k v p1).2 k v p2).1 = true ∧
    storeGet (upsert_document (upsert_document s k v p1).2 k v p2).2 (string_to_uuid k) =
      some ⟨v, withChunkId p2 k⟩ ∧
    (withChunkId p1 k ≠ withChunkId p2 k →
      storeGet (upsert_document (upsert_document s k v p1).2 k v p2).2 (string_to_uuid k) ≠
        some ⟨v, withChunkId p1 k⟩) := by
  rw [upsert_document_ok s k v p1 hv,
      upsert_document_ok _ k v p2 hv]
  refine ⟨?_, rfl, rfl, storeGet_storeUpsert_self _ _ _, ?_⟩
  · exact length_storeUpsert_of_hasKey _ _ _ (hasKey_storeUpsert_self s _ _)
  · intro hne heq
    rw [storeGet_storeUpsert_self] at heq
    simp [Point.mk.injEq] at heq
    exact hne heq.symm

/-- Witness for C1 at a concrete input: the empty collection, the key
`"a:chunk_0"`, the zero vector of dimension 1536 and two distinct
payloads. -/
theorem C1_upsert_idempotent_per_key_witness :
    (List.replicate 1536 (0 : ℚ)).length = 1536 ∧
    (pointsCount (upsert_document
        (upsert_document [] "a:chunk_0" (List.replicate 1536 (0 : ℚ))
          [("content", PValue.str "x")]).2
        "a:chunk_0" (List.replicate 1536 (0 : ℚ)) [("content", PValue.str "y")]).2 =
      pointsCount (upsert_document [] "a:chunk_0" (List.replicate 1536 (0 : ℚ))
        [("content", PValue.str "x")]).2 ∧
    (upsert_document [] "a:chunk_0" (List.replicate 1536 (0 : ℚ))
        [("content", PValue.str "x")]).1 = true ∧
    (upsert_document
        (upsert_document [] "a:chunk_0" (List.replicate 1536 (0 : ℚ))
          [("content", PValue.str "x")]).2
        "a:chunk_0" (List.replicate 1536 (0 : ℚ)) [("content", PValue.str "y")]).1 = true ∧
    storeGet (upsert_document
        (upsert_document [] "a:chunk_0" (List.replicate 1536 (0 : ℚ))
          [("content", PValue.str "x")]).2
        "a:chunk_0" (List.replicate 1536 (0 : ℚ)) [("content", PValue.str "y")]).2
        (string_to_uuid "a:chunk_0") =
      some ⟨List.replicate 1536 (0 : ℚ),
        withChunkId [("content", PValue.str "y")] "a:chunk_0"⟩ ∧
    (withChunkId [("content", PValue.str "x")] "a:chunk_0" ≠
        withChunkId [("content", PValue.str "y")] "a:chunk_0" →
      storeGet (upsert_document
          (upsert_document [] "a:chunk_0" (List.replicate 1536 (0 : ℚ))
            [("content", PValue.str "x")]).2
          "a:chunk_0" (List.replicate 1536 (0 : ℚ)) [("content", PValue.str "y")]).2
          (string_to_uuid "a:chunk_0") ≠
        some ⟨List.replicate 1536 (0 : ℚ),
          withChunkId [("content", PValue.str "x")] "a:chunk_0"⟩)) :=
  ⟨by rw [List.length_replicate],
    C1_upsert_idempotent_per_key [] "a:chunk_0" (List.replicate 1536 (0 : ℚ))
      [("content", PValue.str "x")] [("content", PValue.str "y")]
      (by rw [List.length_replicate])⟩

/-- Claim C2 counterexample — the code raises no `EmptyInputError`
anywhere: `chunk_text` on the empty (whitespace-only) string returns
normally with exactly one chunk whose text is that empty string, so the
returned sequence IS a list containing a chunk with empty/whitespace
text. -/
theorem C2_empty_input_counterexample :
    TextChunker.chunk_text ⟨6000, 200, charEncode⟩ "" "doc1" ([] : Payload) =
      [⟨"doc1:chunk_0", "", [""], 0, 0, 1, "doc1", []⟩] := by
  decide

/-- Claim C2 (amended) — empty or whitespace-only input is accepted, not
rejected: whenever its token count is within the budget (which the
deployed tiktoken encoder guarantees, giving the empty string zero
tokens), `chunk_text` raises nothing and returns exactly one chunk
carrying the input verbatim. -/
theorem C2_empty_input_single_chunk {M : Type} (c : TextChunker)
    (text doc_id : String) (metadata : M)
    (hws : pyStrip text = "") (hle : c.count_tokens text ≤ c.max_tokens) :
    c.chunk_text text doc_id metadata =
      [{ chunk_id := doc_id ++ ":chunk_0", text := text, pieces := [text],
         tokens := c.count_tokens text, chunk_index := 0, total_chunks := 1,
         parent_id := doc_id, metadata := metadata }] := by
  simp [TextChunker.chunk_text, hle]

/-- Witness for the amended C2 at the empty string. -/
theorem C2_empty_input_single_chunk_witness :
    pyStrip "" = "" ∧
    TextChunker.count_tokens ⟨6000, 200, charEncode⟩ "" ≤ 6000 ∧
    TextChunker.chunk_text ⟨6000, 200, charEncode⟩ "" "doc1" ([] : Payload) =
      [{ chunk_id := "doc1" ++ ":chunk_0", text := "", pieces := [""],
         tokens := TextChunker.count_tokens ⟨6000, 200, charEncode⟩ "",
         chunk_index := 0, total_chunks := 1, parent_id := "doc1",
         metadata := ([] : Payload) }] :=
  ⟨by decide, by decide,
    C2_empty_input_single_chunk ⟨6000, 200, charEncode⟩ "" "doc1" [] (by decide) (by decide)⟩

/-- Claim C3 counterexample — a dimension-mismatched upsert does not
raise: the `ValueError` is caught by the surrounding `except Exception`
and converted into the non-error return value `False` (with the store
unchanged). -/
theorem C3_dim_mismatch_counterexample :
    upsert_document [] "blog:post_1:chunk_0" [] [] = (false, []) := rfl

/-- Claim C3 (amended) — on a vector whose length differs from the
collection's 1536 dimension, `upsert_document` returns `False` (the
validation `ValueError` is raised before any write but caught internally
and converted to a boolean), and the stored collection state is unchanged:
the mismatched point is never written. -/
theorem C3_dim_mismatch_returns_false (s : Store) (chunk_id : String)
    (embedding : List ℚ) (metadata : Payload) (h : embedding.length ≠ 1536) :
    upsert_document s chunk_id embedding metadata = (false, s) := by
  simp [upsert_document, upsertBody, h]

/-- Witness for the amended C3 at an empty (0-dimensional) vector. -/
theorem C3_dim_mismatch_returns_false_witness :
    (([] : List ℚ)).length ≠ 1536 ∧
    upsert_document [("u", ⟨[], []⟩)] "k" ([] : List ℚ) [] = (false, [("u", ⟨[], []⟩)]) :=
  ⟨by decide, C3_dim_mismatch_returns_false [("u", ⟨[], []⟩)] "k" [] [] (by decide)⟩

/-- Claim C4 — a non-empty text within the token budget is returned as a
single chunk: the text verbatim, index 0, total 1, id `doc_id:chunk_0`,
the text's token count, and the caller-supplied metadata unchanged. -/
theorem C4_single_chunk_verbatim {M : Type} (c : TextChunker)
    (text doc_id : String) (metadata : M)
    (hne : text ≠ "") (hle : c.count_tokens text ≤ c.max_tokens) :
    c.chunk_text text doc_id metadata =
      [{ chunk_id := doc_id ++ ":chunk_0", text := text, pieces := [text],
         tokens := c.count_tokens text, chunk_index := 0, total_chunks := 1,
         parent_id := doc_id, metadata := metadata }] := by
  simp [TextChunker.chunk_text, hle]

/-- Witness for C4 on the text `"hello"` (5 tokens under the
per-character witness encoding, within the 6000 budget). -/
theorem C4_single_chunk_verbatim_witness :
    "hello" ≠ "" ∧
    TextChunker.count_tokens ⟨6000, 200, charEncode⟩ "hello" ≤ 6000 ∧
    TextChunker.chunk_text ⟨6000, 200, charEncode⟩ "hello" "doc1" ([] : Payload) =
      [{ chunk_id := "doc1" ++ ":chunk_0", text := "hello", pieces := ["hello"],
         tokens := TextChunker.count_tokens ⟨6000, 200, charEncode⟩ "hello",
         chunk_index := 0, total_chunks := 1, parent_id := "doc1",
         metadata := ([] : Payload) }] :=
  ⟨by decide, by decide,
    C4_single_chunk_verbatim ⟨6000, 200, charEncode⟩ "hello" "doc1" [] (by decide) (by decide)⟩

/-- Claim C8 — `point_exists` on a key that is not stored returns `False`
and never raises: with the collection absent the remote retrieve errors
and the handler returns `False`; with the collection present the retrieve
finds nothing; and any other failing retrieve call also yields `False`. -/
theorem C8_point_exists_never_written (st : Option Store) (chunk_id : String)
    (e : String)
    (h : ∀ s, st = some s → storeGet s (string_to_uuid chunk_id) = none) :
    point_exists st chunk_id = false ∧ pointExistsFrom (Except.error e) = false := by
  refine ⟨?_, rfl⟩
  cases st with
  | none => rfl
  | some s => simp [point_exists, retrieveRemote, pointExistsFrom, h s rfl]

/-- Witness for C8: absent collection, and a present-but-empty
collection, on a never-written key; plus a failing retrieve. -/
theorem C8_point_exists_never_written_witness :
    (point_exists none "never:seen:chunk_0" = false ∧
      pointExistsFrom (Except.error "timeout") = false) ∧
    (point_exists (some []) "never:seen:chunk_0" = false ∧
      pointExistsFrom (Except.error "timeout") = false) :=
  ⟨C8_point_exists_never_written none "never:seen:chunk_0" "timeout"
      (fun _ hs => by cases hs),
    C8_point_exists_never_written (some []) "never:seen:chunk_0" "timeout"
      (fun s hs => by cases hs; rfl)⟩

/-- Claim C9 — `generate_embeddings_batch`: a successful result is
exactly the remote response, one vector per input text in request order
and of dimension 1536; a remote response with the wrong count or any
wrong-dimension vector raises a validation error; the empty input list
returns `[]` without calling the remote service. -/
theorem C9_generate_embeddings_batch_contract
    (remote : List String → List (List ℚ)) (texts : List String) :
    (texts = [] → generate_embeddings_batch remote texts = ⟨false, Except.ok []⟩) ∧
    (∀ es, (generate_embeddings_batch remote texts).result = Except.ok es →
      es.length = texts.length ∧ (texts = [] ∨ es = remote texts) ∧
      ∀ emb ∈ es, emb.length = 1536) ∧
    (texts ≠ [] →
      ((remote texts).length ≠ texts.length ∨ ∃ emb ∈ remote texts, emb.length ≠ 1536) →
      ∃ msg, (generate_embeddings_batch remote texts).result = Except.error msg) := by
  by_cases he : texts = []
  · subst he
    refine ⟨fun _ => rfl, ?_, fun hne => absurd rfl hne⟩
    intro es hes
    simp [generate_embeddings_batch] at hes
    subst hes
    simp
  · have hemp : texts.isEmpty = false := by
      simpa [List.isEmpty_iff] using he
    by_cases hlen : (remote texts).length = texts.length
    · by_cases hdim : ∀ emb ∈ remote texts, emb.length = 1536
      · have hnex : ¬∃ emb ∈ remote texts, ¬emb.length = 1536 := by
          push_neg
          exact hdim
        refine ⟨fun h0 => absurd h0 he, ?_, ?_⟩
        · intro es hes
          simp [generate_embeddings_batch, hemp, hlen, hnex] at hes
          subst hes
          exact ⟨hlen, Or.inr rfl, hdim⟩
        · intro _ hbad
          rcases hbad with hbad | ⟨emb, hm, hbad⟩
          · exact absurd hlen hbad
          · exact absurd (hdim emb hm) hbad
      · have hex : ∃ emb ∈ remote texts, ¬emb.length = 1536 := by
          push_neg at hdim
          exact hdim
        refine ⟨fun h0 => absurd h0 he, ?_, ?_⟩
        · intro es hes
          simp [generate_embeddings_batch, hemp, hlen, hex] at hes
        · intro _ _
          refine ⟨"Expected 1536 dims", ?_⟩
          simp [generate_embeddings_batch, hemp, hlen, hex]
    · refine ⟨fun h0 => absurd h0 he, ?_, ?_⟩
      · intro es hes
        simp [generate_embeddings_batch, hemp, hlen] at hes
      · intro _ _
        refine ⟨"Expected " ++ toString texts.length ++ " embeddings, got " ++
          toString (remote texts).length, ?_⟩
        simp [generate_embeddings_batch, hemp, hlen]

/-- Witness for C9 at the empty input list and a constant remote service. -/
theorem C9_generate_embeddings_batch_contract_witness :
    generate_embeddings_batch (fun ts => ts.map (fun _ => List.replicate 1536 (0 : ℚ)))
      [] = ⟨false, Except.ok []⟩ :=
  (C9_generate_embeddings_batch_contract
    (fun ts => ts.map (fun _ => List.replicate 1536 (0 : ℚ))) []).1 rfl

/-- Claim C10 counterexample — remote failures are swallowed, not
re-raised: a failing remote call makes `search` return the normal value
`[]`, `delete_document` the normal value `False`, and
`get_collection_stats` the empty dict, hiding the error from the
caller. -/
theorem C10_failure_counterexample :
    searchOutcome (Except.error "connection refused") = [] ∧
    deleteOutcome (Except.error "connection refused") = false ∧
    statsOutcome (Except.error "connection refused") = none :=
  ⟨rfl, rfl, rfl⟩

/-- Claim C10 (amended) — remote-call failures in the VectorStore
operations are caught by each operation's `except` handler and converted
into silently returned normal values — `[]` from `search`, `False` from
`delete_document`, the empty dict from `get_collection_stats` — rather
than being re-raised with a transient/fatal classification; in
particular, running against an absent collection yields those same normal
values. -/
theorem C10_remote_failures_swallowed (e : String)
    (score : List ℚ → List ℚ → ℚ) (query : List ℚ) (limit : Nat)
    (category source : Option String) (tags : Option (List String))
    (thr : Option ℚ) (chunk_id : String) :
    searchOutcome (Except.error e) = [] ∧
    deleteOutcome (Except.error e) = false ∧
    statsOutcome (Except.error e) = none ∧
    search score none query limit category source tags thr = [] ∧
    delete_document none chunk_id = false ∧
    get_collection_stats none = none :=
  ⟨rfl, rfl, rfl, rfl, rfl, rfl⟩

/-! # Search lemmas -/

theorem mem_insertByScore (h x : Hit) (l : List Hit) :
    x ∈ insertByScore h l ↔ x = h ∨ x ∈ l := by
  induction l with
  | nil => simp [insertByScore]
  | cons a as ih =>
    by_cases hc : a.score ≤ h.score
    · simp [insertByScore, hc]
    · simp only [insertByScore, hc, if_false, List.mem_cons, ih]
      tauto

theorem pairwise_insertByScore (h : Hit) (l : List Hit)
    (hl : l.Pairwise (fun a b => b.score ≤ a.score)) :
    (insertByScore h l).Pairwise (fun a b => b.score ≤ a.score) := by
  induction l with
  | nil => simp [insertByScore]
  | cons a as ih =>
    rcases List.pairwise_cons.mp hl with ⟨ha, has⟩
    by_cases hc : a.score ≤ h.score
    · simp only [insertByScore]
      rw [if_pos hc]
      refine List.pairwise_cons.mpr ⟨?_, hl⟩
      intro b hb
      rcases List.mem_cons.mp hb with rfl | hb
      · exact hc
      · exact le_trans (ha b hb) hc
    · simp only [insertByScore]
      rw [if_neg hc]
      refine List.pairwise_cons.mpr ⟨?_, ih has⟩
      intro b hb
      rcases (mem_insertByScore h b as).mp hb with rfl | hb
      · exact le_of_not_le hc
      · exact ha b hb

theorem mem_sortByScoreDesc (x : Hit) (l : List Hit) :
    x ∈ sortByScoreDesc l ↔ x ∈ l := by
  induction l with
  | nil => simp [sortByScoreDesc]
  | cons a as ih => simp [sortByScoreDesc, mem_insertByScore, ih]

theorem pairwise_sortByScoreDesc (l : List Hit) :
    (sortByScoreDesc l).Pairwise (fun a b => b.score ≤ a.score) := by
  induction l with
  | nil => simp [sortByScoreDesc]
  | cons a as ih => exact pairwise_insertByScore a _ ih

theorem satAll_of_mem (conds : List Condition) (p : Payload) (cond : Condition)
    (hall : satAll conds p = true) (hmem : cond ∈ conds) :
    satCondition p cond = true := by
  unfold satAll at hall
  rw [List.all_eq_true] at hall
  exact hall cond hmem

/-- Claim C7 counterexample — Python truthiness defeats the claim at the
supplied filter `category=""`: the empty-string filter is skipped by
`if category:`, so `search` returns a point whose stored category
(`"work"`) does not equal the supplied filter value `""`. -/
theorem C7_truthiness_counterexample :
    search (fun _ _ => 0) (some [("p1", ⟨[], [("category", PValue.str "work")]⟩)])
      [] 10 (some "") none none none =
      [⟨"p1", 0, [("category", PValue.str "work")]⟩] ∧
    satCondition [("category", PValue.str "work")] (Condition.catEq "") = false := by
  constructor
  · rfl
  · rfl

/-- Claim C7 (amended) — `search` returns at most `limit` results ordered
by non-increasing score; every returned point's payload satisfies the
conjunction of the conditions the code builds from the supplied filters —
which, by Python truthiness, treats an empty-string category/source and
an empty tag list as not supplied; for truthy filter values this is exact
equality on `category`/`source` and any-of membership on `tags`; and an
empty collection, or one in which no stored point satisfies the
conditions, yields `[]` rather than an error. -/
theorem C7_search_filtered_sorted (score : List ℚ → List ℚ → ℚ) (st : Store)
    (q : List ℚ) (limit : Nat) (category source : Option String)
    (tags : Option (List String)) (thr : Option ℚ)
    (res : List SearchResult)
    (hres : res = search score (some st) q limit category source tags thr) :
    res.length ≤ limit ∧
    res.Pairwise (fun a b => b.score ≤ a.score) ∧
    (∀ r ∈ res, satAll (buildConditions category source tags) r.metadata = true) ∧
    (∀ cv, category = some cv → cv ≠ "" →
      ∀ r ∈ res, satCondition r.metadata (Condition.catEq cv) = true) ∧
    (∀ sv, source = some sv → sv ≠ "" →
      ∀ r ∈ res, satCondition r.metadata (Condition.srcEq sv) = true) ∧
    (∀ ts, tags = some ts → ts ≠ [] →
      ∀ r ∈ res, satCondition r.metadata (Condition.tagsAny ts) = true) ∧
    (st = [] → res = []) ∧
    ((∀ kv ∈ st, satAll (buildConditions category source tags) kv.2.payload = false) →
      res = []) := by
  have hmem : ∀ r ∈ res, ∃ h : Hit,
      satAll (buildConditions category source tags) h.payload = true ∧
      r = SearchResult.mk h.id h.score h.payload := by
    intro r hr
    rw [hres] at hr
    simp only [search, queryRemote, searchOutcome, queryPoints, formatResults,
      List.mem_map] at hr
    rcases hr with ⟨h, hh, rfl⟩
    have hh2 : h ∈ sortByScoreDesc ((st.map
        (fun kv => Hit.mk kv.1 (score q kv.2.vector) kv.2.payload)).filter
        (fun h2 => satAll (buildConditions category source tags) h2.payload &&
          thresholdOk thr h2.score)) := (List.take_sublist _ _).subset hh
    rw [mem_sortByScoreDesc] at hh2
    have := (List.mem_filter.mp hh2).2
    rw [Bool.and_eq_true] at this
    exact ⟨h, this.1, rfl⟩
  refine ⟨?_, ?_, ?_, ?_, ?_, ?_, ?_, ?_⟩
  · rw [hres]
    simp only [search, queryRemote, searchOutcome, queryPoints, formatResults,
      List.length_map, List.length_take]
    exact min_le_left _ _
  · rw [hres]
    simp only [search, queryRemote, searchOutcome, queryPoints, formatResults]
    rw [List.pairwise_map]
    exact (pairwise_sortByScoreDesc _).sublist (List.take_sublist _ _)
  · intro r hr
    rcases hmem r hr with ⟨h, hsat, rfl⟩
    exact hsat
  · intro cv hcat hne r hr
    rcases hmem r hr with ⟨h, hsat, rfl⟩
    refine satAll_of_mem _ _ _ hsat ?_
    simp [buildConditions, hcat, hne]
  · intro sv hsrc hne r hr
    rcases hmem r hr with ⟨h, hsat, rfl⟩
    refine satAll_of_mem _ _ _ hsat ?_
    simp [buildConditions, hsrc, hne]
  · intro ts htags hne r hr
    rcases hmem r hr with ⟨h, hsat, rfl⟩
    refine satAll_of_mem _ _ _ hsat ?_
    simp [buildConditions, htags, hne]
  · intro hempty
    subst hempty
    rw [hres]
    simp [search, queryRemote, searchOutcome, queryPoints, formatResults, sortByScoreDesc]
  · intro hnone
    rw [hres]
    simp only [search, queryRemote, searchOutcome, queryPoints, formatResults]
    have hfilter : (st.map
        (fun kv => Hit.mk kv.1 (score q kv.2.vector) kv.2.payload)).filter
        (fun h2 => satAll (buildConditions category source tags) h2.payload &&
          thresholdOk thr h2.score) = [] := by
      rw [List.filter_eq_nil_iff]
      intro h hh
      rcases List.mem_map.mp hh with ⟨kv, hkv, rfl⟩
      simp [hnone kv hkv]
    rw [hfilter]
    simp [sortByScoreDesc]

/-- Witness for the amended C7 at spec scenario 5: a two-point collection
(one `"work"`, one `"personal"` point) searched with `category="work"`. -/
theorem C7_search_filtered_sorted_witness :
    (search (fun _ _ => 0)
        (some [("p1", ⟨[], [("category", PValue.str "work")]⟩),
               ("p2", ⟨[], [("category", PValue.str "personal")]⟩)])
        [] 5 (some "work") none none none).length ≤ 5 ∧
    (search (fun _ _ => 0)
        (some [("p1", ⟨[], [("category", PValue.str "work")]⟩),
               ("p2", ⟨[], [("category", PValue.str "personal")]⟩)])
        [] 5 (some "work") none none none).Pairwise
      (fun a b => b.score ≤ a.score) ∧
    (∀ r ∈ search (fun _ _ => 0)
        (some [("p1", ⟨[], [("category", PValue.str "work")]⟩),
               ("p2", ⟨[], [("category", PValue.str "personal")]⟩)])
        [] 5 (some "work") none none none,
      satAll (buildConditions (some "work") none none) r.metadata = true) ∧
    (∀ cv, some "work" = some cv → cv ≠ "" →
      ∀ r ∈ search (fun _ _ => 0)
        (some [("p1", ⟨[], [("category", PValue.str "work")]⟩),
               ("p2", ⟨[], [("category", PValue.str "personal")]⟩)])
        [] 5 (some "work") none none none,
      satCondition r.metadata (Condition.catEq cv) = true) ∧
    (∀ sv, (none : Option String) = some sv → sv ≠ "" →
      ∀ r ∈ search (fun _ _ => 0)
        (some [("p1", ⟨[], [("category", PValue.str "work")]⟩),
               ("p2", ⟨[], [("category", PValue.str "personal")]⟩)])
        [] 5 (some "work") none none none,
      satCondition r.metadata (Condition.srcEq sv) = true) ∧
    (∀ ts, (none : Option (List String)) = some ts → ts ≠ [] →
      ∀ r ∈ search (fun _ _ => 0)
        (some [("p1", ⟨[], [("category", PValue.str "work")]⟩),
               ("p2", ⟨[], [("category", PValue.str "personal")]⟩)])
        [] 5 (some "work") none none none,
      satCondition r.metadata (Condition.tagsAny ts) = true) ∧
    ([("p1", (⟨[], [("category", PValue.str "work")]⟩ : Point)),
      ("p2", ⟨[], [("category", PValue.str "personal")]⟩)] = ([] : Store) →
      search (fun _ _ => 0)
        (some [("p1", ⟨[], [("category", PValue.str "work")]⟩),
               ("p2", ⟨[], [("category", PValue.str "personal")]⟩)])
        [] 5 (some "work") none none none = []) ∧
    ((∀ kv ∈ ([("p1", (⟨[], [("category", PValue.str "work")]⟩ : Point)),
        ("p2", ⟨[], [("category", PValue.str "personal")]⟩)] : Store),
        satAll (buildConditions (some "work") none none) kv.2.payload = false) →
      search (fun _ _ => 0)
        (some [("p1", ⟨[], [("category", PValue.str "work")]⟩),
               ("p2", ⟨[], [("category", PValue.str "personal")]⟩)])
        [] 5 (some "work") none none none = []) :=
  C7_search_filtered_sorted (fun _ _ => 0)
    [("p1", ⟨[], [("category", PValue.str "work")]⟩),
     ("p2", ⟨[], [("category", PValue.str "personal")]⟩)]
    [] 5 (some "work") none none none _ rfl

/-! # Chunking lemmas -/

theorem piecesFlat_append (a b : List RawChunk) :
    piecesFlat (a ++ b) = piecesFlat a ++ piecesFlat b := by
  simp [piecesFlat]

theorem piecesFlat_flush (st : ChunkState) :
    piecesFlat (flushCurrent st) = piecesFlat st.chunks ++ st.current := by
  by_cases h : st.current.isEmpty
  · have h2 : st.current = [] := List.isEmpty_iff.mp h
    simp [flushCurrent, h, h2]
  · simp [flushCurrent, h, piecesFlat_append, piecesFlat]

theorem accumPiece_flat (max : Nat) (st : ChunkState) (p : String) (t : Nat) :
    piecesFlat (accumPiece max st p t).chunks ++ (accumPiece max st p t).current =
      (piecesFlat st.chunks ++ st.current) ++ [p] := by
  unfold accumPiece
  by_cases hc : st.current_tokens + t > max
  · rw [if_pos hc]
    simp [piecesFlat_flush]
  · rw [if_neg hc]
    simp

theorem foldl_accum_flat (c : TextChunker) (xs : List String) (st : ChunkState) :
    piecesFlat ((xs.foldl (fun s x => accumPiece c.max_tokens s x (c.count_tokens x)) st).chunks) ++
      (xs.foldl (fun s x => accumPiece c.max_tokens s x (c.count_tokens x)) st).current =
      (piecesFlat st.chunks ++ st.current) ++ xs := by
  induction xs generalizing st with
  | nil => simp
  | cons x xs ih =>
    simp only [List.foldl_cons]
    rw [ih (accumPiece c.max_tokens st x (c.count_tokens x)), accumPiece_flat]
    simp

theorem processParagraph_flat (c : TextChunker) (st : ChunkState) (para : String) :
    piecesFlat (processParagraph c st para).chunks ++ (processParagraph c st para).current =
      (piecesFlat st.chunks ++ st.current) ++
        (if c.count_tokens para > c.max_tokens then splitBySentences para else [para]) := by
  unfold processParagraph
  by_cases hc : c.count_tokens para > c.max_tokens
  · rw [if_pos hc, if_pos hc]
    exact foldl_accum_flat c (splitBySentences para) st
  · rw [if_neg hc, if_neg hc]
    exact accumPiece_flat _ _ _ _

theorem foldl_process_flat (c : TextChunker) (paras : List String) (st : ChunkState) :
    piecesFlat ((paras.foldl (processParagraph c) st).chunks) ++
      (paras.foldl (processParagraph c) st).current =
      (piecesFlat st.chunks ++ st.current) ++
        paras.flatMap (fun p => if c.count_tokens p > c.max_tokens
          then splitBySentences p else [p]) := by
  induction paras generalizing st with
  | nil => simp
  | cons p ps ih =>
    simp only [List.foldl_cons, List.flatMap_cons]
    rw [ih (processParagraph c st p), processParagraph_flat]
    simp

theorem rawChunks_flat (c : TextChunker) (paras : List String) :
    piecesFlat (rawChunks c paras) =
      paras.flatMap (fun p => if c.count_tokens p > c.max_tokens
        then splitBySentences p else [p]) := by
  unfold rawChunks
  rw [piecesFlat_flush, foldl_process_flat]
  simp [piecesFlat]

theorem finalizeChunks_map_pieces {M : Type} (d : String) (md : M) (total : Nat) :
    ∀ (i : Nat) (raw : List RawChunk),
      (finalizeChunks d md total i raw).map Chunk.pieces = raw.map RawChunk.pieces
  | _, [] => rfl
  | i, rc :: rest => by
    simp [finalizeChunks, finalizeChunks_map_pieces d md total (i + 1) rest]

theorem chunk_text_pieces_flatten {M : Type} (c : TextChunker)
    (text doc_id : String) (md : M) :
    ((c.chunk_text text doc_id md).map Chunk.pieces).flatten = processedPieces c text := by
  unfold TextChunker.chunk_text processedPieces
  by_cases hc : c.count_tokens text ≤ c.max_tokens
  · rw [if_pos hc, if_pos hc]
    simp
  · rw [if_neg hc, if_neg hc]
    unfold TextChunker.create_chunks
    rw [finalizeChunks_map_pieces]
    exact rawChunks_flat c _

/-- Claim C6 — chunking is a deterministic function of the inputs, and
`overlap_tokens` has no effect on the output: for the same text, encoder
and `max_tokens`, any two overlap settings produce identical chunk lists;
moreover the chunks' pieces concatenate to the processed piece sequence
exactly once each — consecutive chunks share no overlapping pieces. -/
theorem C6_deterministic_no_overlap {M : Type} (enc : String → List Nat)
    (max o1 o2 : Nat) (text doc_id : String) (md : M) :
    TextChunker.chunk_text ⟨max, o1, enc⟩ text doc_id md =
      TextChunker.chunk_text ⟨max, o1, enc⟩ text doc_id md ∧
    TextChunker.chunk_text ⟨max, o1, enc⟩ text doc_id md =
      TextChunker.chunk_text ⟨max, o2, enc⟩ text doc_id md ∧
    ((TextChunker.chunk_text ⟨max, o1, enc⟩ text doc_id md).map Chunk.pieces).flatten =
      processedPieces ⟨max, o1, enc⟩ text :=
  ⟨rfl, rfl, chunk_text_pieces_flatten _ _ _ _⟩

/-! # Token-budget invariant -/

theorem goodRaw_flush (c : TextChunker) (st : ChunkState)
    (hchunks : ∀ rc ∈ st.chunks, goodRaw c rc)
    (hcur : goodCurrent c st.current st.current_tokens) :
    ∀ rc ∈ flushCurrent st, goodRaw c rc := by
  intro rc hrc
  unfold flushCurrent at hrc
  rcases List.mem_append.mp hrc with h | h
  · exact hchunks rc h
  · by_cases he : st.current.isEmpty
    · simp [he] at h
    · simp only [he, Bool.false_eq_true, if_false, List.mem_singleton] at h
      subst h
      unfold goodCurrent at hcur
      unfold goodRaw
      exact hcur

theorem accumPiece_good (c : TextChunker) (st : ChunkState) (p : String)
    (hchunks : ∀ rc ∈ st.chunks, goodRaw c rc)
    (hcur : goodCurrent c st.current st.current_tokens) :
    (∀ rc ∈ (accumPiece c.max_tokens st p (c.count_tokens p)).chunks, goodRaw c rc) ∧
    goodCurrent c (accumPiece c.max_tokens st p (c.count_tokens p)).current
      (accumPiece c.max_tokens st p (c.count_tokens p)).current_tokens := by
  unfold accumPiece
  by_cases hc : st.current_tokens + c.count_tokens p > c.max_tokens
  · rw [if_pos hc]
    refine ⟨goodRaw_flush c st hchunks hcur, ?_⟩
    unfold goodCurrent
    by_cases hp : c.count_tokens p ≤ c.max_tokens
    · exact Or.inl hp
    · exact Or.inr ⟨p, rfl, Nat.lt_of_not_le hp⟩
  · rw [if_neg hc]
    refine ⟨hchunks, Or.inl ?_⟩
    exact Nat.le_of_not_lt hc

theorem foldl_accum_good (c : TextChunker) (xs : List String) (st : ChunkState)
    (hchunks : ∀ rc ∈ st.chunks, goodRaw c rc)
    (hcur : goodCurrent c st.current st.current_tokens) :
    (∀ rc ∈ (xs.foldl (fun s x => accumPiece c.max_tokens s x (c.count_tokens x)) st).chunks,
      goodRaw c rc) ∧
    goodCurrent c
      (xs.foldl (fun s x => accumPiece c.max_tokens s x (c.count_tokens x)) st).current
      (xs.foldl (fun s x => accumPiece c.max_tokens s x (c.count_tokens x)) st).current_tokens := by
  induction xs generalizing st with
  | nil => exact ⟨hchunks, hcur⟩
  | cons x xs ih =>
    simp only [List.foldl_cons]
    obtain ⟨h1, h2⟩ := accumPiece_good c st x hchunks hcur
    exact ih _ h1 h2

theorem processParagraph_good (c : TextChunker) (st : ChunkState) (para : String)
    (hchunks : ∀ rc ∈ st.chunks, goodRaw c rc)
    (hcur : goodCurrent c st.current st.current_tokens) :
    (∀ rc ∈ (processParagraph c st para).chunks, goodRaw c rc) ∧
    goodCurrent c (processParagraph c st para).current
      (processParagraph c st para).current_tokens := by
  unfold processParagraph
  by_cases hc : c.count_tokens para > c.max_tokens
  · rw [if_pos hc]
    exact foldl_accum_good c _ st hchunks hcur
  · rw [if_neg hc]
    exact accumPiece_good c st para hchunks hcur

theorem foldl_process_good (c : TextChunker) (paras : List String) (st : ChunkState)
    (hchunks : ∀ rc ∈ st.chunks, goodRaw c rc)
    (hcur : goodCurrent c st.current st.current_tokens) :
    (∀ rc ∈ (paras.foldl (processParagraph c) st).chunks, goodRaw c rc) ∧
    goodCurrent c (paras.foldl (processParagraph c) st).current
      (paras.foldl (processParagraph c) st).current_tokens := by
  induction paras generalizing st with
  | nil => exact ⟨hchunks, hcur⟩
  | cons p ps ih =>
    simp only [List.foldl_cons]
    obtain ⟨h1, h2⟩ := processParagraph_good c st p hchunks hcur
    exact ih _ h1 h2

theorem rawChunks_good (c : TextChunker) (paras : List String) :
    ∀ rc ∈ rawChunks c paras, goodRaw c rc := by
  unfold rawChunks
  obtain ⟨h1, h2⟩ := foldl_process_good c paras ⟨[], [], 0⟩
    (by intro rc h; simp at h) (Or.inl (Nat.zero_le _))
  exact goodRaw_flush c _ h1 h2

theorem finalizeChunks_length {M : Type} (d : String) (md : M) (total : Nat) :
    ∀ (i : Nat) (raw : List RawChunk),
      (finalizeChunks d md total i raw).length = raw.length
  | _, [] => rfl
  | i, _ :: rest => by
    simp [finalizeChunks, finalizeChunks_length d md total (i + 1) rest]

theorem finalizeChunks_map_index {M : Type} (d : String) (md : M) (total : Nat) :
    ∀ (i : Nat) (raw : List RawChunk),
      (finalizeChunks d md total i raw).map Chunk.chunk_index = List.range' i raw.length
  | _, [] => rfl
  | i, _ :: rest => by
    simp only [finalizeChunks, List.map_cons, List.length_cons, List.range'_succ]
    rw [finalizeChunks_map_index d md total (i + 1) rest]

theorem finalizeChunks_mem {M : Type} (d : String) (md : M) (total : Nat) :
    ∀ (i : Nat) (raw : List RawChunk) (ch : Chunk M),
      ch ∈ finalizeChunks d md total i raw →
      ch.total_chunks = total ∧ ch.parent_id = d ∧ ch.metadata = md ∧
      ch.text = join2nl ch.pieces ∧
      ch.chunk_id = d ++ ":chunk_" ++ toString ch.chunk_index ∧
      ∃ rc ∈ raw, ch.pieces = rc.pieces ∧ ch.tokens = rc.tokens := by
  intro i raw
  induction raw generalizing i with
  | nil =>
    intro ch h
    simp [finalizeChunks] at h
  | cons rc rest ih =>
    intro ch h
    rcases List.mem_cons.mp h with rfl | h
    · exact ⟨rfl, rfl, rfl, rfl, rfl, rc, List.mem_cons_self _ _, rfl, rfl⟩
    · obtain ⟨h1, h2, h3, h4, h5, rc2, hrc2, h6, h7⟩ := ih (i + 1) ch h
      exact ⟨h1, h2, h3, h4, h5, rc2, List.mem_cons_of_mem _ hrc2, h6, h7⟩

theorem chunk_zero_id (d : String) :
    d ++ ":chunk_0" = d ++ ":chunk_" ++ toString (0 : Nat) := by
  rw [String.append_assoc]
  rfl

/-- Claim C5 — invariants of every chunk sequence returned by
`chunk_text`: chunk indices are contiguous from 0 in order, each chunk's
`total_chunks` is the sequence length, `chunk_id` is
`parent_id ++ ":chunk_" ++ index` with `parent_id = doc_id`, the
caller-supplied metadata is attached unchanged, and each recorded `tokens`
is within `max_tokens` except for a chunk made of one single sentence (of
an over-budget paragraph — possibly the paragraph itself when it is one
sentence) whose own token count exceeds the budget. -/
theorem C5_chunk_invariants {M : Type} (c : TextChunker) (text doc_id : String)
    (md : M) (cs : List (Chunk M)) (hcs : cs = c.chunk_text text doc_id md) :
    cs.map Chunk.chunk_index = List.range cs.length ∧
    (∀ ch ∈ cs, ch.total_chunks = cs.length) ∧
    (∀ ch ∈ cs, ch.parent_id = doc_id ∧
      ch.chunk_id = doc_id ++ ":chunk_" ++ toString ch.chunk_index ∧
      ch.metadata = md ∧ ch.text = join2nl ch.pieces) ∧
    (∀ ch ∈ cs, ch.tokens ≤ c.max_tokens ∨
      ∃ s, ch.pieces = [s] ∧ c.count_tokens s > c.max_tokens ∧
        ∃ p ∈ splitByParagraphs text, c.count_tokens p > c.max_tokens ∧
          s ∈ splitBySentences p) := by
  by_cases hfit : c.count_tokens text ≤ c.max_tokens
  · have hsingle : cs =
        [⟨doc_id ++ ":chunk_0", text, [text], c.count_tokens text, 0, 1, doc_id, md⟩] := by
      rw [hcs]
      unfold TextChunker.chunk_text
      rw [if_pos hfit]
    subst hsingle
    refine ⟨rfl, ?_, ?_, ?_⟩
    · intro ch h
      rcases List.mem_singleton.mp h with rfl
      rfl
    · intro ch h
      rcases List.mem_singleton.mp h with rfl
      exact ⟨rfl, chunk_zero_id doc_id, rfl, rfl⟩
    · intro ch h
      rcases List.mem_singleton.mp h with rfl
      exact Or.inl hfit
  · have hmulti : cs = finalizeChunks doc_id md
        (rawChunks c (splitByParagraphs text)).length 0
        (rawChunks c (splitByParagraphs text)) := by
      rw [hcs]
      unfold TextChunker.chunk_text
      rw [if_neg hfit]
      rfl
    have hlen : cs.length = (rawChunks c (splitByParagraphs text)).length := by
      rw [hmulti, finalizeChunks_length]
    refine ⟨?_, ?_, ?_, ?_⟩
    · rw [hlen, hmulti, finalizeChunks_map_index, List.range_eq_range']
    · intro ch h
      rw [hmulti] at h
      rw [hlen]
      exact (finalizeChunks_mem _ _ _ _ _ ch h).1
    · intro ch h
      rw [hmulti] at h
      obtain ⟨_, h2, h3, h4, h5, _⟩ := finalizeChunks_mem _ _ _ _ _ ch h
      exact ⟨h2, h5, h3, h4⟩
    · intro ch h
      rw [hmulti] at h
      obtain ⟨_, _, _, _, _, rc, hrc, hpieces, htok⟩ := finalizeChunks_mem _ _ _ _ _ ch h
      rcases rawChunks_good c (splitByParagraphs text) rc hrc with hle | ⟨s, hs, hgt⟩
      · exact Or.inl (htok ▸ hle)
      · refine Or.inr ⟨s, hpieces.trans hs, hgt, ?_⟩
        have hsmem : s ∈ piecesFlat (rawChunks c (splitByParagraphs text)) := by
          unfold piecesFlat
          exact List.mem_flatten_of_mem (List.mem_map_of_mem RawChunk.pieces hrc)
            (hs ▸ List.mem_singleton_self s)
        rw [rawChunks_flat] at hsmem
        rcases List.mem_flatMap.mp hsmem with ⟨p, hp, hsp⟩
        by_cases hpbig : c.count_tokens p > c.max_tokens
        · rw [if_pos hpbig] at hsp
          exact ⟨p, hp, hpbig, hsp⟩
        · rw [if_neg hpbig] at hsp
          rcases List.mem_singleton.mp hsp with rfl
          exact absurd hgt hpbig

/-- Witness for C5 on a concrete three-paragraph text that needs
chunking under a 5-token budget (per-character witness encoding). -/
theorem C5_chunk_invariants_witness :
    (TextChunker.chunk_text ⟨5, 0, charEncode⟩ "aaa\n\nbbb\n\nccc" "d" ([] : Payload)) =
      TextChunker.chunk_text ⟨5, 0, charEncode⟩ "aaa\n\nbbb\n\nccc" "d" ([] : Payload) ∧
    ((TextChunker.chunk_text ⟨5, 0, charEncode⟩ "aaa\n\nbbb\n\nccc" "d"
        ([] : Payload)).map Chunk.chunk_index =
      List.range (TextChunker.chunk_text ⟨5, 0, charEncode⟩ "aaa\n\nbbb\n\nccc" "d"
        ([] : Payload)).length ∧
    (∀ ch ∈ TextChunker.chunk_text ⟨5, 0, charEncode⟩ "aaa\n\nbbb\n\nccc" "d"
        ([] : Payload),
      ch.total_chunks = (TextChunker.chunk_text ⟨5, 0, charEncode⟩ "aaa\n\nbbb\n\nccc" "d"
        ([] : Payload)).length) ∧
    (∀ ch ∈ TextChunker.chunk_text ⟨5, 0, charEncode⟩ "aaa\n\nbbb\n\nccc" "d"
        ([] : Payload),
      ch.parent_id = "d" ∧
      ch.chunk_id = "d" ++ ":chunk_" ++ toString ch.chunk_index ∧
      ch.metadata = ([] : Payload) ∧ ch.text = join2nl ch.pieces) ∧
    (∀ ch ∈ TextChunker.chunk_text ⟨5, 0, charEncode⟩ "aaa\n\nbbb\n\nccc" "d"
        ([] : Payload),
      ch.tokens ≤ (5 : Nat) ∨
      ∃ s, ch.pieces = [s] ∧
        TextChunker.count_tokens ⟨5, 0, charEncode⟩ s > 5 ∧
        ∃ p ∈ splitByParagraphs "aaa\n\nbbb\n\nccc",
          TextChunker.count_tokens ⟨5, 0, charEncode⟩ p > 5 ∧
          s ∈ splitBySentences p)) :=
  ⟨rfl, C5_chunk_invariants ⟨5, 0, charEncode⟩ "aaa\n\nbbb\n\nccc" "d" []
    (TextChunker.chunk_text ⟨5, 0, charEncode⟩ "aaa\n\nbbb\n\nccc" "d" []) rfl⟩

end Rumi
